import Mathlib

/-!
Shallow embedding of `pr_bridge/formatter.py` (and the `PRInfo` record from
`pr_bridge/fetcher.py`), together with theorems checking the specified
behaviour of the comment-threading, resolution-inference, filtering and
rendering pipeline.

Modelling conventions:
  * Python strings are sequences of code points; we use Lean `String`
    (a list of `Char`) and model slicing (`s[:n]`), `len`, `splitlines`,
    `strip`/`rstrip` explicitly over the character list.
  * Python dict-shaped JSON records are modelled as structures whose
    optional keys are `Option`-typed fields; `d.get(k, default)` becomes
    `Option.getD`, and Python's falsy-coalescing `a or b` is modelled by
    dedicated functions (`py_or_int_opt`) where the falsy check differs
    from `getD`.
  * Python `list.sort(key=...)` is a stable sort by a total preorder; any
    stable sort agrees with it, so we use `List.mergeSort` (stable) with
    the Boolean comparison induced by the sort key.
  * Machine integers: GitHub ids and line numbers are Python `int`s
    (unbounded), hence `Int`.
-/

namespace PrBridge

/-! ## Python string primitives -/

/-- The characters Python's `str.strip()` / `str.rstrip()` remove
(ASCII whitespace; the inputs here never carry the exotic Unicode spaces). -/
def py_isspace (c : Char) : Bool :=
  c = ' ' || c = '\t' || c = '\n' || c = '\x0d' || c = '\x0b' || c = '\x0c'

/-- Line-boundary characters of Python's `str.splitlines`
(besides the two-character boundary `"\r\n"`). -/
def is_line_boundary (c : Char) : Bool :=
  c = '\n' || c = '\x0d' || c = '\x0b' || c = '\x0c' ||
  c = '\x1c' || c = '\x1d' || c = '\x1e' || c = '\x85' ||
  c = '\u2028' || c = '\u2029'

/-- Worker for `py_splitlines`: `acc` is the current (reversed) line, and
`skipNL` records that the previous character was `'\r'` (already emitted), so
that a directly following `'\n'` is absorbed into the same `"\r\n"` boundary. -/
def splitlinesAux : Bool → List Char → List Char → List (List Char)
  | _, [], acc => if acc.isEmpty then [] else [acc.reverse]
  | skipNL, c :: rest, acc =>
    if skipNL && c = '\n' then
      splitlinesAux false rest acc
    else if c = '\x0d' then
      acc.reverse :: splitlinesAux true rest []
    else if is_line_boundary c then
      acc.reverse :: splitlinesAux false rest []
    else
      splitlinesAux false rest (c :: acc)

/-- Python `str.splitlines()`:
`"a\nb\n".splitlines() == ["a", "b"]`, `"".splitlines() == []`. -/
def py_splitlines (s : String) : List String :=
  (splitlinesAux false s.toList []).map String.mk

/-- Python `s[:n]` (slice of the first `n` code points). -/
def py_take (s : String) (n : Nat) : String :=
  String.mk (s.toList.take n)

/-- Python `str.rstrip()`. -/
def py_rstrip (s : String) : String :=
  String.mk ((s.toList.reverse.dropWhile py_isspace).reverse)

/-- Python `str.strip()`. -/
def py_strip (s : String) : String :=
  String.mk (((s.toList.dropWhile py_isspace).reverse.dropWhile py_isspace).reverse)

/-- Python `a or b` for `Optional[int]` operands (`0` and `None` are falsy):
models `raw.get("original_line") or raw.get("line")`. -/
def py_or_int_opt (a b : Option Int) : Option Int :=
  match a with
  | some n => if n = 0 then b else some n
  | none => b

/-- Python `str(x)` for an `Optional[int]`: `None` prints as `"None"`. -/
def py_str_opt_int : Option Int → String
  | none => "None"
  | some n => toString n

/-! ## Internal data model (`formatter.py`) -/

/-- `ReviewComment` dataclass. -/
structure ReviewComment where
  id : Int
  author : String
  body : String
  path : String
  line : Option Int
  diff_hunk : String
  created_at : String
  html_url : String
  in_reply_to_id : Option Int
  is_suggestion : Bool
  author_association : String
deriving DecidableEq, Repr

/-- `CommentThread` dataclass: a top-level inline comment with its replies. -/
structure CommentThread where
  root : ReviewComment
  replies : List ReviewComment := []
deriving DecidableEq, Repr

/-- `CommentThread.is_resolved`: inferred resolution status,
`len(self.replies) > 0`. -/
def CommentThread.is_resolved (t : CommentThread) : Bool :=
  decide (t.replies.length > 0)

/-! ## Raw input records

The raw JSON dicts consumed by `format_pr`.  `raw["id"]` and
`raw["user"]["login"]` are accessed unconditionally in the source (a missing
key would be a structural defect), so they are required fields; every other
key is read with `.get` and is therefore `Option`-typed.  A chained
`raw.get("user", {}).get("login")` collapses to a single `Option` field. -/

structure RawComment where
  id : Int
  user_login : String
  body : Option String := none
  path : Option String := none
  original_line : Option Int := none
  line : Option Int := none
  diff_hunk : Option String := none
  created_at : Option String := none
  html_url : Option String := none
  in_reply_to_id : Option Int := none
  author_association : Option String := none
deriving DecidableEq, Repr

structure RawIssueComment where
  user_login : Option String := none
  author_association : Option String := none
  created_at : Option String := none
  body : Option String := none
  html_url : Option String := none
deriving DecidableEq, Repr

structure RawReview where
  state : Option String := none
  user_login : Option String := none
  submitted_at : Option String := none
  body : Option String := none
deriving DecidableEq, Repr

/-- `PRInfo` dataclass from `fetcher.py`. -/
structure PRInfo where
  owner : String
  repo : String
  number : Int
  title : String
  author : String
  url : String
  base_branch : String
  head_branch : String
  state : String
  body : String
deriving DecidableEq, Repr

/-! ## Helpers of `formatter.py` -/

/-- `_clean_body`: strip trailing whitespace from each line, then strip the
whole text.  (`"\n".join(line.rstrip() for line in body.splitlines()).strip()`) -/
def clean_body (body : String) : String :=
  py_strip (String.intercalate "\n" ((py_splitlines body).map py_rstrip))

/-- `_is_suggestion`: `"```suggestion" in body`. -/
def is_suggestion (body : String) : Bool :=
  decide ("```suggestion".toList <:+: body.toList)

/-- `_extract_diff_hunk_tail`: keep only the last `context_lines` lines of the
diff hunk; shorter hunks are returned unchanged. -/
def extract_diff_hunk_tail (diff_hunk : String) (context_lines : Nat := 6) : String :=
  let lines := py_splitlines diff_hunk
  if lines.length > context_lines then
    String.intercalate "\n" (lines.drop (lines.length - context_lines))
  else diff_hunk

/-! ## Thread builder (`_build_threads`) -/

/-- Construction of one `ReviewComment` from a raw dict (the loop body of
`_build_threads`).  `raw.get("body") or ""` agrees with `getD ""` because the
only falsy `str` is `""` itself; `raw.get("original_line") or raw.get("line")`
needs the genuine falsy chain (`0` is falsy). -/
def mkReviewComment (raw : RawComment) : ReviewComment where
  id := raw.id
  author := raw.user_login
  body := clean_body (raw.body.getD "")
  path := raw.path.getD ""
  line := py_or_int_opt raw.original_line raw.line
  diff_hunk := raw.diff_hunk.getD ""
  created_at := raw.created_at.getD ""
  html_url := raw.html_url.getD ""
  in_reply_to_id := raw.in_reply_to_id
  is_suggestion := is_suggestion (raw.body.getD "")
  author_association := raw.author_association.getD ""

/-- All converted comments, in input order. -/
def commentsOf (raws : List RawComment) : List ReviewComment :=
  raws.map mkReviewComment

/-- The root comments (`in_reply_to_id is None`), in input order. -/
def rootsOf (raws : List RawComment) : List ReviewComment :=
  (commentsOf raws).filter (fun c => decide (c.in_reply_to_id = none))

/-- The reply list collected for a given parent id: in `_build_threads` the
dict `replies` maps each parent id to the replies carrying it, appended in
input order, which is exactly this filter; `replies.get(root.id, [])` is the
same filter (empty when nothing matched). -/
def repliesFor (comments : List ReviewComment) (pid : Int) : List ReviewComment :=
  comments.filter (fun c => decide (c.in_reply_to_id = some pid))

/-- The threads before the final sort, one per root, in root order. -/
def threadsUnsorted (raws : List RawComment) : List CommentThread :=
  (rootsOf raws).map (fun r => ⟨r, repliesFor (commentsOf raws) r.id⟩)

/-- The sort key `(t.root.path, t.root.line or 0)`.  For `line : Option Int`
the falsy coalescing `or 0` coincides with `getD 0` (`some 0` is falsy but
maps to `0` either way). -/
def threadKey (t : CommentThread) : String × Int :=
  (t.root.path, t.root.line.getD 0)

/-- Python's `<` on strings: lexicographic comparison by code point. -/
def charListLT : List Char → List Char → Bool
  | _, [] => false
  | [], _ :: _ => true
  | c :: cs, d :: ds => decide (c < d) || (decide (c = d) && charListLT cs ds)

/-- The Boolean comparison induced by Python's tuple `<=` on the sort key:
lexicographic, strings compared lexicographically by code point, integers
numerically. -/
def threadLE (t₁ t₂ : CommentThread) : Bool :=
  charListLT (threadKey t₁).1.toList (threadKey t₂).1.toList ||
    (decide ((threadKey t₁).1 = (threadKey t₂).1) && decide ((threadKey t₁).2 ≤ (threadKey t₂).2))

/-- `_build_threads`: group raw review comments into threads and sort the
threads by `(path, line or 0)`.  Python's `list.sort` is stable, as is
`List.mergeSort`, and a stable sort by a total preorder is unique, so this is
extensionally the Python result. -/
def build_threads (raws : List RawComment) : List CommentThread :=
  (threadsUnsorted raws).mergeSort threadLE

/-! ## Filter stage (inside `format_pr`) -/

/-- The filtering step of `format_pr`: only the literal mode `"unresolved"`
triggers the filter; every other mode string leaves the list unchanged. -/
def applyFilter (threads : List CommentThread) (filter_mode : String) : List CommentThread :=
  if filter_mode = "unresolved" then threads.filter (fun t => !t.is_resolved)
  else threads

/-- The filtered thread list appearing in `format_pr`. -/
def filteredThreads (review_comments : List RawComment) (filter_mode : String) : List CommentThread :=
  applyFilter (build_threads review_comments) filter_mode

/-! ## Markdown rendering -/

/-- `_render_comment_body`. -/
def render_comment_body (comment : ReviewComment) (indent : String := "") : String :=
  String.intercalate "\n"
    ([indent ++ "**@" ++ comment.author ++ "** (" ++ comment.author_association.toLower
        ++ ") · " ++ py_take comment.created_at 10,
      indent ++ "[view on GitHub](" ++ comment.html_url ++ ")",
      ""]
     ++ (py_splitlines comment.body).map (fun line => indent ++ line))

/-- The `parts` list assembled by `_render_thread`. -/
def render_thread_parts (thread : CommentThread) (index : Nat) : List String :=
  let root := thread.root
  let status := if thread.is_resolved then "addressed" else "**OPEN**"
  ["### Thread " ++ toString index ++ " — `" ++ root.path ++ "` (line "
      ++ py_str_opt_int root.line ++ ") [" ++ status ++ "]",
   "",
   "**Diff context:**",
   "```diff",
   extract_diff_hunk_tail root.diff_hunk,
   "```",
   "",
   render_comment_body root,
   ""]
  ++ (if thread.replies.isEmpty then []
      else ["**Replies:**", ""]
        ++ thread.replies.flatMap (fun reply => [render_comment_body reply "> ", ">", ""]))

/-- `_render_thread`: the thread rendering appended to `lines` as one string. -/
def render_thread (thread : CommentThread) (index : Nat) : String :=
  String.intercalate "\n" (render_thread_parts thread index)

/-- The header block of `format_pr` (the first nine `lines.append` calls). -/
def headerLines (pr_info : PRInfo) (filter_mode : String) : List String :=
  ["# PR #" ++ toString pr_info.number ++ ": " ++ pr_info.title,
   "",
   "- **Repository:** " ++ pr_info.owner ++ "/" ++ pr_info.repo,
   "- **Author:** @" ++ pr_info.author,
   "- **State:** " ++ pr_info.state,
   "- **Branch:** `" ++ pr_info.head_branch ++ "` → `" ++ pr_info.base_branch ++ "`",
   "- **URL:** " ++ pr_info.url,
   "- **Filter:** " ++ filter_mode,
   ""]

/-- The predicate of the `meaningful_reviews` comprehension:
`r.get("state") in ("APPROVED", "CHANGES_REQUESTED", "DISMISSED")
and r.get("user", {}).get("login") != "ghost"`. -/
def isMeaningfulReview (r : RawReview) : Bool :=
  (decide (r.state = some "APPROVED") || decide (r.state = some "CHANGES_REQUESTED")
    || decide (r.state = some "DISMISSED"))
  && !decide (r.user_login = some "ghost")

def meaningfulReviews (reviews : List RawReview) : List RawReview :=
  reviews.filter isMeaningfulReview

/-- The `- **@reviewer** — \x60STATE\x60 (date)` line of a review entry. -/
def reviewHeadline (r : RawReview) : String :=
  "- **@" ++ r.user_login.getD "unknown" ++ "** — `" ++ r.state.getD "" ++ "` ("
    ++ py_take (r.submitted_at.getD "") 10 ++ ")"

/-- The truncated body preview of a review entry
(`f"  > {body[:200]}{'…' if len(body) > 200 else ''}"`). -/
def reviewPreview (r : RawReview) : String :=
  let body := clean_body (r.body.getD "")
  "  > " ++ py_take body 200 ++ (if body.length > 200 then "…" else "")

/-- The lines one meaningful review contributes to the block. -/
def reviewEntryLines (r : RawReview) : List String :=
  [reviewHeadline r] ++ (if clean_body (r.body.getD "") = "" then [] else [reviewPreview r])

/-- The review-summaries block of `format_pr` (possibly empty). -/
def reviewBlock (reviews : List RawReview) : List String :=
  if (meaningfulReviews reviews).isEmpty then []
  else ["## Review Summaries", ""] ++ (meaningfulReviews reviews).flatMap reviewEntryLines ++ [""]

/-- The lines one general (issue-level) comment contributes. -/
def issueCommentLines (c : RawIssueComment) : List String :=
  ["**@" ++ c.user_login.getD "unknown" ++ "** (" ++ (c.author_association.getD "").toLower
     ++ ") · " ++ py_take (c.created_at.getD "") 10 ++ " · [view](" ++ c.html_url.getD "" ++ ")",
   "",
   clean_body (c.body.getD ""),
   ""]

/-- The general-comments block of `format_pr` (possibly empty). -/
def generalBlock (issue_comments : List RawIssueComment) : List String :=
  if issue_comments.isEmpty then []
  else ["---", "## General PR Comments", ""] ++ issue_comments.flatMap issueCommentLines

/-- One iteration of the thread loop in `format_pr`: a file-group heading is
emitted when `thread.root.path != current_file`, then the rendered thread. -/
def fileChunk (current_file : Option String) (thread : CommentThread) (thread_index : Nat) :
    List String :=
  (if some thread.root.path ≠ current_file
   then ["---", "## File: `" ++ thread.root.path ++ "`", ""] else [])
  ++ [render_thread thread thread_index]

/-- The thread loop of `format_pr`: `current_file` starts as `None`
(so the first thread always opens a group) and `thread_index` starts at 1. -/
def threadsLoop : Option String → Nat → List CommentThread → List String
  | _, _, [] => []
  | current_file, thread_index, thread :: rest =>
    fileChunk current_file thread thread_index
      ++ threadsLoop (some thread.root.path) (thread_index + 1) rest

/-- The `current_file` value in force when the loop reaches thread `k`
(counting from 0): initially the seed, afterwards the previous root's path. -/
def prevPath (current_file : Option String) (threads : List CommentThread) : Nat → Option String
  | 0 => current_file
  | k + 1 => (threads.get? k).map (fun t => t.root.path)

/-- The count line `_{n} thread(s) shown (...)._`. -/
def countLine (n : Nat) (filter_mode : String) : String :=
  "_" ++ toString n ++ " thread(s) shown ("
    ++ (if filter_mode = "unresolved" then "open only" else "all, including addressed") ++ ")._"

/-- The inline-review-comments block body: either the no-threads notice or the
count line followed by the grouped thread renderings. -/
def inlineBlock (threads : List CommentThread) (filter_mode : String) : List String :=
  if threads.isEmpty then
    ["_No inline review comments found for the selected filter._", ""]
  else
    [countLine threads.length filter_mode, ""] ++ threadsLoop none 1 threads

/-- The full `lines` list built by `format_pr`, in order of the `append`s. -/
def formatPrLines (pr_info : PRInfo) (review_comments : List RawComment)
    (issue_comments : List RawIssueComment) (reviews : List RawReview)
    (filter_mode : String) : List String :=
  headerLines pr_info filter_mode
  ++ reviewBlock reviews
  ++ ["## Inline Review Comments", ""]
  ++ inlineBlock (filteredThreads review_comments filter_mode) filter_mode
  ++ generalBlock issue_comments

/-- `format_pr`: the full Markdown document, `"\n".join(lines)`. -/
def format_pr (pr_info : PRInfo) (review_comments : List RawComment)
    (issue_comments : List RawIssueComment) (reviews : List RawReview)
    (filter_mode : String := "all") : String :=
  String.intercalate "\n"
    (formatPrLines pr_info review_comments issue_comments reviews filter_mode)

/-! ## Concrete example inputs (used by witnesses) -/

def ex_pr : PRInfo :=
  {owner := "o", repo := "r", number := 7, title := "T", author := "au", url := "u",
   base_branch := "main", head_branch := "f", state := "open", body := ""}

def ex_root : RawComment :=
  {id := 1, user_login := "alice", path := some "a.py", line := some 3}

/-- A review verdict whose body has exactly 250 characters. -/
def ex_review250 : RawReview :=
  {state := some "APPROVED", user_login := some "dave",
   submitted_at := some "2024-01-03T10:00:00Z",
   body := some (String.mk (List.replicate 250 'a'))}

/-! ## Helper lemmas -/

theorem charListLT_trans : ∀ {a b c : List Char},
    charListLT a b = true → charListLT b c = true → charListLT a c = true
  | a, [], c, h₁, _ => by simp [charListLT] at h₁
  | a, b :: bs, [], _, h₂ => by simp [charListLT] at h₂
  | [], b :: bs, c :: cs, _, _ => by simp [charListLT]
  | x :: xs, y :: ys, z :: zs, h₁, h₂ => by
    simp only [charListLT, Bool.or_eq_true, Bool.and_eq_true, decide_eq_true_eq] at h₁ h₂ ⊢
    rcases h₁ with h₁ | ⟨hxy, r₁⟩
    · rcases h₂ with h₂ | ⟨hyz, _⟩
      · exact Or.inl (lt_trans h₁ h₂)
      · exact Or.inl (hyz ▸ h₁)
    · rcases h₂ with h₂ | ⟨hyz, r₂⟩
      · exact Or.inl (hxy ▸ h₂)
      · exact Or.inr ⟨hxy.trans hyz, charListLT_trans r₁ r₂⟩

theorem charListLT_trichotomy : ∀ (a b : List Char),
    charListLT a b = true ∨ a = b ∨ charListLT b a = true
  | [], [] => Or.inr (Or.inl rfl)
  | [], _ :: _ => Or.inl (by simp [charListLT])
  | _ :: _, [] => Or.inr (Or.inr (by simp [charListLT]))
  | x :: xs, y :: ys => by
    rcases lt_trichotomy x y with hxy | hxy | hxy
    · exact Or.inl (by simp [charListLT, hxy])
    · rcases charListLT_trichotomy xs ys with h | h | h
      · exact Or.inl (by simp [charListLT, hxy, h])
      · exact Or.inr (Or.inl (by rw [hxy, h]))
      · exact Or.inr (Or.inr (by simp [charListLT, hxy.symm, h]))
    · exact Or.inr (Or.inr (by simp [charListLT, hxy]))

theorem threadLE_trans (a b c : CommentThread)
    (h₁ : threadLE a b = true) (h₂ : threadLE b c = true) : threadLE a c = true := by
  simp only [threadLE, Bool.or_eq_true, Bool.and_eq_true, decide_eq_true_eq] at h₁ h₂ ⊢
  rcases h₁ with h₁ | ⟨e₁, n₁⟩
  · rcases h₂ with h₂ | ⟨e₂, n₂⟩
    · exact Or.inl (charListLT_trans h₁ h₂)
    · exact Or.inl (e₂ ▸ h₁)
  · rcases h₂ with h₂ | ⟨e₂, n₂⟩
    · exact Or.inl (by rw [e₁]; exact h₂)
    · exact Or.inr ⟨e₁.trans e₂, le_trans n₁ n₂⟩

theorem threadLE_total (a b : CommentThread) : (threadLE a b || threadLE b a) = true := by
  simp only [threadLE, Bool.or_eq_true, Bool.and_eq_true, decide_eq_true_eq]
  rcases charListLT_trichotomy (threadKey a).1.toList (threadKey b).1.toList with h | h | h
  · exact Or.inl (Or.inl h)
  · have hs : (threadKey a).1 = (threadKey b).1 := String.toList_inj.mp h
    rcases le_total (threadKey a).2 (threadKey b).2 with hn | hn
    · exact Or.inl (Or.inr ⟨hs, hn⟩)
    · exact Or.inr (Or.inr ⟨hs.symm, hn⟩)
  · exact Or.inr (Or.inl h)

/-- Stability of `mergeSort` in filter form: the elements selected by a
predicate on which the comparison is constantly true keep their relative
order, i.e. filtering commutes with the sort. -/
theorem mergeSort_filter_congr {α : Type} (le : α → α → Bool) (l : List α) (p : α → Bool)
    (htrans : ∀ (a b c : α), le a b → le b c → le a c)
    (htotal : ∀ (a b : α), le a b || le b a)
    (hp : ∀ a b, p a = true → p b = true → le a b = true) :
    (l.mergeSort le).filter p = l.filter p := by
  have hpw : (l.filter p).Pairwise (le · ·) := by
    apply List.pairwise_of_forall_mem_list
    intro a ha b hb
    exact hp a b (List.of_mem_filter ha) (List.of_mem_filter hb)
  have h₁ : List.Sublist (l.filter p) ((l.mergeSort le).filter p) := by
    have h := (List.sublist_mergeSort htrans htotal hpw (List.filter_sublist l)).filter p
    simpa [List.filter_filter] using h
  have h₂ : ((l.mergeSort le).filter p).length = (l.filter p).length :=
    ((List.mergeSort_perm l le).filter p).length_eq
  exact (h₁.eq_of_length h₂.symm).symm

theorem mem_build_threads {raws : List RawComment} {t : CommentThread} :
    t ∈ build_threads raws ↔ t ∈ threadsUnsorted raws :=
  (List.mergeSort_perm _ _).mem_iff

theorem mem_threadsUnsorted {raws : List RawComment} {t : CommentThread} :
    t ∈ threadsUnsorted raws ↔
      ∃ r ∈ rootsOf raws, (⟨r, repliesFor (commentsOf raws) r.id⟩ : CommentThread) = t := by
  simp [threadsUnsorted]

/-! ## Claim theorems -/

/-- C3: `is_resolved(thread)` is true exactly when the thread's reply list is
non-empty; as a Lean function of the thread it is pure and total by
construction (no I/O, no side effects). -/
theorem is_resolved_iff_nonempty_replies (t : CommentThread) :
    t.is_resolved = true ↔ t.replies ≠ [] := by
  simp [CommentThread.is_resolved, List.length_pos]

/-- C4: filtering with mode `"all"` is the identity; filtering with mode
`"unresolved"` keeps exactly the threads with zero replies, as an
order-preserving subsequence of the input. -/
theorem filter_identity_and_unresolved (threads : List CommentThread) :
    applyFilter threads "all" = threads
    ∧ (∀ t ∈ applyFilter threads "unresolved", t.replies = [])
    ∧ (applyFilter threads "unresolved").Sublist threads
    ∧ (∀ t ∈ threads, t.replies = [] → t ∈ applyFilter threads "unresolved") := by
  refine ⟨by simp [applyFilter], ?_, ?_, ?_⟩
  · intro t ht
    have h : t ∈ threads ∧ t.is_resolved = false := by
      simpa [applyFilter, List.mem_filter] using ht
    have h2 := h.2
    simpa [CommentThread.is_resolved, List.length_eq_zero] using h2
  · simp only [applyFilter, if_pos rfl]
    exact List.filter_sublist threads
  · intro t ht hrep
    simp only [applyFilter, if_pos rfl]
    exact List.mem_filter.mpr ⟨ht, by simp [CommentThread.is_resolved, hrep]⟩

/-- C6: when the diff hunk has more than 6 lines, the rendered excerpt is the
join of exactly its last 6 lines (a length-6 suffix of the hunk's lines);
with 6 or fewer lines the hunk string is returned unchanged. -/
theorem extract_diff_hunk_tail_last_six (diff_hunk : String) :
    ((py_splitlines diff_hunk).length ≤ 6 → extract_diff_hunk_tail diff_hunk = diff_hunk)
    ∧ ((py_splitlines diff_hunk).length > 6 →
        extract_diff_hunk_tail diff_hunk
          = String.intercalate "\n"
              ((py_splitlines diff_hunk).drop ((py_splitlines diff_hunk).length - 6))
        ∧ ((py_splitlines diff_hunk).drop ((py_splitlines diff_hunk).length - 6)).length = 6
        ∧ ((py_splitlines diff_hunk).drop ((py_splitlines diff_hunk).length - 6))
            <:+ py_splitlines diff_hunk) := by
  have hdef : extract_diff_hunk_tail diff_hunk
      = if (py_splitlines diff_hunk).length > 6 then
          String.intercalate "\n"
            ((py_splitlines diff_hunk).drop ((py_splitlines diff_hunk).length - 6))
        else diff_hunk := rfl
  constructor
  · intro h; rw [hdef, if_neg (by omega)]
  · intro h
    refine ⟨by rw [hdef, if_pos h], ?_, List.drop_suffix _ _⟩
    rw [List.length_drop]; omega

/-- C1: with unique identifiers, every thread root has a null parent id,
every reply's parent id is its thread root's id, replies are kept in input
order (a subsequence of the converted input), and no comment lands in two
different threads' reply lists. -/
theorem build_threads_thread_invariants (raws : List RawComment)
    (hids : (raws.map RawComment.id).Nodup) :
    (∀ t ∈ build_threads raws,
        t.root.in_reply_to_id = none
        ∧ (∀ c ∈ t.replies, c.in_reply_to_id = some t.root.id)
        ∧ List.Sublist t.replies (commentsOf raws))
    ∧ (build_threads raws).Pairwise
        (fun t₁ t₂ => ∀ c : ReviewComment, c ∈ t₁.replies → c ∉ t₂.replies) := by
  constructor
  · intro t ht
    obtain ⟨r, hr, rfl⟩ := mem_threadsUnsorted.mp (mem_build_threads.mp ht)
    refine ⟨?_, ?_, List.filter_sublist _⟩
    · simpa using List.of_mem_filter hr
    · intro c hc
      simpa using List.of_mem_filter hc
  · have hroots : (rootsOf raws).Pairwise (fun r₁ r₂ => r₁.id ≠ r₂.id) := by
      have hcom : (commentsOf raws).Pairwise (fun c₁ c₂ => c₁.id ≠ c₂.id) := by
        have h : raws.Pairwise (fun r₁ r₂ => r₁.id ≠ r₂.id) := List.pairwise_map.mp hids
        unfold commentsOf
        rw [List.pairwise_map]
        exact h
      exact hcom.filter _
    have hun : (threadsUnsorted raws).Pairwise
        (fun t₁ t₂ => ∀ c : ReviewComment, c ∈ t₁.replies → c ∉ t₂.replies) := by
      unfold threadsUnsorted
      rw [List.pairwise_map]
      refine hroots.imp ?_
      intro r₁ r₂ hne c hc₁ hc₂
      have e₁ : c.in_reply_to_id = some r₁.id := by simpa using List.of_mem_filter hc₁
      have e₂ : c.in_reply_to_id = some r₂.id := by simpa using List.of_mem_filter hc₂
      exact hne (Option.some.inj (e₁.symm.trans e₂))
    exact (List.mergeSort_perm (threadsUnsorted raws) threadLE).symm.pairwise hun
      (fun h c hc₂ hc₁ => h c hc₁ hc₂)

/-- Witness for C1 on a concrete input with two roots and one reply. -/
theorem build_threads_thread_invariants_witness :
    ((([{id := 1, user_login := "a", path := some "b.py"},
        {id := 2, user_login := "b", path := some "a.py"},
        {id := 3, user_login := "c", in_reply_to_id := some 1}] : List RawComment).map
          RawComment.id).Nodup)
    ∧ ((∀ t ∈ build_threads
          [{id := 1, user_login := "a", path := some "b.py"},
           {id := 2, user_login := "b", path := some "a.py"},
           {id := 3, user_login := "c", in_reply_to_id := some 1}],
          t.root.in_reply_to_id = none
          ∧ (∀ c ∈ t.replies, c.in_reply_to_id = some t.root.id)
          ∧ List.Sublist t.replies (commentsOf
              [{id := 1, user_login := "a", path := some "b.py"},
               {id := 2, user_login := "b", path := some "a.py"},
               {id := 3, user_login := "c", in_reply_to_id := some 1}]))
        ∧ (build_threads
            [{id := 1, user_login := "a", path := some "b.py"},
             {id := 2, user_login := "b", path := some "a.py"},
             {id := 3, user_login := "c", in_reply_to_id := some 1}]).Pairwise
            (fun t₁ t₂ => ∀ c : ReviewComment, c ∈ t₁.replies → c ∉ t₂.replies)) :=
  ⟨by decide, build_threads_thread_invariants _ (by decide)⟩

/-- C2: `_build_threads` returns a permutation of the unsorted threads that is
sorted ascending by the key `(root path, root line or 0)` — lexicographically
by code point on the path, numerically on the line — and the sort is stable:
threads sharing one key keep their relative input order (filtering the output
by any fixed key gives the same list as filtering the input). -/
theorem build_threads_sorted_and_stable (raws : List RawComment) :
    (build_threads raws).Perm (threadsUnsorted raws)
    ∧ (build_threads raws).Pairwise (fun t₁ t₂ =>
        charListLT (threadKey t₁).1.toList (threadKey t₂).1.toList = true
        ∨ ((threadKey t₁).1 = (threadKey t₂).1 ∧ (threadKey t₁).2 ≤ (threadKey t₂).2))
    ∧ (∀ key : String × Int,
        (build_threads raws).filter (fun t => decide (threadKey t = key))
          = (threadsUnsorted raws).filter (fun t => decide (threadKey t = key))) := by
  refine ⟨List.mergeSort_perm _ _, ?_, ?_⟩
  · have h := List.sorted_mergeSort threadLE_trans threadLE_total (threadsUnsorted raws)
    refine h.imp ?_
    intro a b hab
    simpa [threadLE, Bool.or_eq_true, Bool.and_eq_true, decide_eq_true_eq] using hab
  · intro key
    refine mergeSort_filter_congr threadLE (threadsUnsorted raws) _
      threadLE_trans threadLE_total ?_
    intro a b ha hb
    have ha' : threadKey a = key := by simpa using ha
    have hb' : threadKey b = key := by simpa using hb
    simp [threadLE, ha', hb']

/-- C5: a reply whose parent id matches no root comment's id is silently
dropped from every thread's reply list; the builder is a total function, so
no error is ever raised on such dangling references. -/
theorem dangling_reply_silently_dropped (raws : List RawComment) (c : ReviewComment)
    (pid : Int) (_hm : c ∈ commentsOf raws) (hpid : c.in_reply_to_id = some pid)
    (hnr : ∀ r ∈ rootsOf raws, r.id ≠ pid) :
    ∀ t ∈ build_threads raws, c ∉ t.replies := by
  intro t ht hc
  obtain ⟨r, hr, rfl⟩ := mem_threadsUnsorted.mp (mem_build_threads.mp ht)
  have e : c.in_reply_to_id = some r.id := by simpa using List.of_mem_filter hc
  exact hnr r hr (Option.some.inj (e.symm.trans hpid))

/-- Witness for C5: a reply pointing at the nonexistent parent id 99. -/
theorem dangling_reply_silently_dropped_witness :
    (mkReviewComment {id := 2, user_login := "b", in_reply_to_id := some 99}
        ∈ commentsOf [{id := 1, user_login := "a"},
                      {id := 2, user_login := "b", in_reply_to_id := some 99}]
      ∧ (mkReviewComment {id := 2, user_login := "b", in_reply_to_id := some 99}).in_reply_to_id
          = some (99 : Int)
      ∧ (∀ r ∈ rootsOf [{id := 1, user_login := "a"},
                        {id := 2, user_login := "b", in_reply_to_id := some 99}],
           r.id ≠ (99 : Int)))
    ∧ ∀ t ∈ build_threads [{id := 1, user_login := "a"},
                           {id := 2, user_login := "b", in_reply_to_id := some 99}],
        mkReviewComment {id := 2, user_login := "b", in_reply_to_id := some 99} ∉ t.replies :=
  ⟨⟨by decide, by decide, by decide⟩,
   dangling_reply_silently_dropped
     [{id := 1, user_login := "a"}, {id := 2, user_login := "b", in_reply_to_id := some 99}]
     (mkReviewComment {id := 2, user_login := "b", in_reply_to_id := some 99})
     99 (by decide) (by decide) (by decide)⟩

/-- Witness for C6 on a concrete 7-line hunk. -/
theorem extract_diff_hunk_tail_last_six_witness :
    (py_splitlines "1\n2\n3\n4\n5\n6\n7").length > 6
    ∧ extract_diff_hunk_tail "1\n2\n3\n4\n5\n6\n7"
        = String.intercalate "\n"
            ((py_splitlines "1\n2\n3\n4\n5\n6\n7").drop
              ((py_splitlines "1\n2\n3\n4\n5\n6\n7").length - 6)) :=
  ⟨by decide, ((extract_diff_hunk_tail_last_six "1\n2\n3\n4\n5\n6\n7").2 (by decide)).1⟩

/-- The thread at position `k` (0-based) is rendered with thread index
`i + k` when the loop starts counting at `i`. -/
theorem render_thread_mem_threadsLoop :
    ∀ (ts : List CommentThread) (cf : Option String) (i k : Nat) (hk : k < ts.length),
      render_thread (ts.get ⟨k, hk⟩) (i + k) ∈ threadsLoop cf i ts := by
  intro ts
  induction ts with
  | nil => intro cf i k hk; simp at hk
  | cons t rest ih =>
    intro cf i k hk
    cases k with
    | zero =>
      apply List.mem_append_left
      show render_thread t (i + 0) ∈ fileChunk cf t i
      rw [Nat.add_zero]
      exact List.mem_append_right _ (List.mem_singleton.mpr rfl)
    | succ k' =>
      apply List.mem_append_right
      have h := ih (some t.root.path) (i + 1) k' (by simpa [Nat.succ_lt_succ_iff] using hk)
      have e : i + (k' + 1) = (i + 1) + k' := by omega
      rw [show ((t :: rest).get ⟨k' + 1, hk⟩ : CommentThread)
            = rest.get ⟨k', by simpa [Nat.succ_lt_succ_iff] using hk⟩ from rfl, e]
      exact h

/-- For a non-empty thread list the inline block is the count line, a blank
line, and the grouped thread renderings. -/
theorem inlineBlock_of_ne_nil {ts : List CommentThread} (h : ts ≠ []) (mode : String) :
    inlineBlock ts mode = countLine ts.length mode :: "" :: threadsLoop none 1 ts := by
  simp [inlineBlock, h]

/-- Anything in the inline block is in the full document. -/
theorem mem_formatPrLines_of_mem_inlineBlock {x : String} (pr : PRInfo)
    (rc : List RawComment) (ic : List RawIssueComment) (rv : List RawReview)
    (mode : String) (hx : x ∈ inlineBlock (filteredThreads rc mode) mode) :
    x ∈ formatPrLines pr rc ic rv mode := by
  simp only [formatPrLines, List.append_assoc, List.mem_append]
  exact Or.inr (Or.inr (Or.inr (Or.inl hx)))

/-- C7: the `k`-th thread of the filtered set (0-based) is rendered inside
the document with the 1-based index `k + 1` — sequential across the whole
filtered set, not reset per file — and its heading line names that index,
the root's file path, the root's line number (`None` when absent), and the
status tag: `**OPEN**` (the tag `OPEN`, bold) when the thread has no replies,
`addressed` when it has at least one. -/
theorem rendered_thread_heading (pr : PRInfo) (rc : List RawComment)
    (ic : List RawIssueComment) (rv : List RawReview) (mode : String) (k : Nat)
    (hk : k < (filteredThreads rc mode).length) :
    render_thread ((filteredThreads rc mode).get ⟨k, hk⟩) (k + 1)
      ∈ formatPrLines pr rc ic rv mode
    ∧ (render_thread_parts ((filteredThreads rc mode).get ⟨k, hk⟩) (k + 1)).head?
        = some ("### Thread " ++ toString (k + 1) ++ " — `"
            ++ ((filteredThreads rc mode).get ⟨k, hk⟩).root.path ++ "` (line "
            ++ (match ((filteredThreads rc mode).get ⟨k, hk⟩).root.line with
                | none => "None"
                | some n => toString n) ++ ") ["
            ++ (if ((filteredThreads rc mode).get ⟨k, hk⟩).replies = [] then "**OPEN**"
                else "addressed") ++ "]") := by
  constructor
  · apply mem_formatPrLines_of_mem_inlineBlock
    rw [inlineBlock_of_ne_nil (List.ne_nil_of_length_pos (by omega)) mode]
    have h := render_thread_mem_threadsLoop (filteredThreads rc mode) none 1 k hk
    rw [Nat.add_comm 1 k] at h
    exact List.mem_cons_of_mem _ (List.mem_cons_of_mem _ h)
  · have haux : ∀ t : CommentThread, (render_thread_parts t (k + 1)).head?
        = some ("### Thread " ++ toString (k + 1) ++ " — `" ++ t.root.path ++ "` (line "
            ++ (match t.root.line with | none => "None" | some n => toString n) ++ ") ["
            ++ (if t.replies = [] then "**OPEN**" else "addressed") ++ "]") := by
      intro t
      rcases hrep : t.replies with _ | ⟨a, l⟩ <;> rcases hline : t.root.line with _ | n <;>
        simp [render_thread_parts, CommentThread.is_resolved, py_str_opt_int, hrep, hline]
    exact haux _

/-- Witness for C7: a single unanswered root comment on `a.py` line 3,
rendered as thread 1 with an `**OPEN**` tag. -/
theorem rendered_thread_heading_witness :
    0 < (filteredThreads [ex_root] "all").length
    ∧ render_thread ⟨mkReviewComment ex_root, []⟩ 1 ∈ formatPrLines ex_pr [ex_root] [] [] "all"
    ∧ (render_thread_parts ⟨mkReviewComment ex_root, []⟩ 1).head?
        = some "### Thread 1 — `a.py` (line 3) [**OPEN**]" := by
  have hft : filteredThreads [ex_root] "all" = [⟨mkReviewComment ex_root, []⟩] := by
    simp [filteredThreads, applyFilter, build_threads, threadsUnsorted, rootsOf,
      commentsOf, repliesFor, ex_root, mkReviewComment]
  have h0 : 0 < (filteredThreads [ex_root] "all").length := by rw [hft]; simp
  have h := rendered_thread_heading ex_pr [ex_root] [] [] "all" 0 h0
  have hget : (filteredThreads [ex_root] "all").get ⟨0, h0⟩
      = ⟨mkReviewComment ex_root, []⟩ := by
    simp only [List.get_eq_getElem, hft, List.getElem_cons_zero]
  refine ⟨h0, ?_, ?_⟩
  · have h1 := h.1
    rw [hget] at h1
    exact h1
  · have h2 := h.2
    rw [hget, Nat.zero_add] at h2
    rw [h2]
    decide

/-- Walking the thread loop: thread `k` (0-based) is rendered in a chunk
whose `current_file` seed is `prevPath cf ts k` and whose index is `i + k`. -/
theorem threadsLoop_decomp :
    ∀ (ts : List CommentThread) (cf : Option String) (i k : Nat) (hk : k < ts.length),
      ∃ pre post, threadsLoop cf i ts
        = pre ++ fileChunk (prevPath cf ts k) (ts.get ⟨k, hk⟩) (i + k) ++ post := by
  intro ts
  induction ts with
  | nil => intro cf i k hk; simp at hk
  | cons t rest ih =>
    intro cf i k hk
    cases k with
    | zero =>
      refine ⟨[], threadsLoop (some t.root.path) (i + 1) rest, ?_⟩
      simp [threadsLoop, prevPath]
    | succ k' =>
      have hk' : k' < rest.length := by simpa [Nat.succ_lt_succ_iff] using hk
      obtain ⟨pre, post, hp⟩ := ih (some t.root.path) (i + 1) k' hk'
      refine ⟨fileChunk cf t i ++ pre, post, ?_⟩
      have hpp : prevPath (some t.root.path) rest k' = prevPath cf (t :: rest) (k' + 1) := by
        cases k' <;> simp [prevPath]
      have hc : fileChunk (prevPath (some t.root.path) rest k') (rest.get ⟨k', hk'⟩)
            ((i + 1) + k')
          = fileChunk (prevPath cf (t :: rest) (k' + 1)) ((t :: rest).get ⟨k' + 1, hk⟩)
            (i + (k' + 1)) := by
        rw [hpp, show i + (k' + 1) = (i + 1) + k' from by omega]
        rfl
      simp only [threadsLoop]
      rw [hp, ← hc]
      simp [List.append_assoc]

/-- A chunk either opens a new file group (four lines) or is just the
rendered thread, depending on whether the root path differs from the
`current_file` in force. -/
theorem fileChunk_cases (p : Option String) (t : CommentThread) (i : Nat) :
    fileChunk p t i
      = (if some t.root.path ≠ p
         then ["---", "## File: `" ++ t.root.path ++ "`", "", render_thread t i]
         else [render_thread t i]) := by
  by_cases h : some t.root.path ≠ p <;> simp [fileChunk, h]

/-- C8: if the filtered thread list is empty the inline block is exactly the
no-matching-threads notice (so the document contains it and zero per-thread
chunks); otherwise the document contains the count line (whose annotation
states whether filtering is active), and each thread's chunk opens a new
file-group heading exactly when its root path differs from the `current_file`
value in force — which is `none` for the first thread (always a heading) and
the previous thread's root path afterwards. -/
theorem inline_block_rendering (pr : PRInfo) (rc : List RawComment)
    (ic : List RawIssueComment) (rv : List RawReview) (mode : String) :
    (filteredThreads rc mode = [] →
        inlineBlock (filteredThreads rc mode) mode
            = ["_No inline review comments found for the selected filter._", ""]
        ∧ "_No inline review comments found for the selected filter._"
            ∈ formatPrLines pr rc ic rv mode
        ∧ threadsLoop none 1 (filteredThreads rc mode) = [])
    ∧ (filteredThreads rc mode ≠ [] →
        countLine (filteredThreads rc mode).length mode ∈ formatPrLines pr rc ic rv mode)
    ∧ (∀ k (hk : k < (filteredThreads rc mode).length),
        (∃ pre post, threadsLoop none 1 (filteredThreads rc mode)
            = pre ++ fileChunk (prevPath none (filteredThreads rc mode) k)
                ((filteredThreads rc mode).get ⟨k, hk⟩) (1 + k) ++ post)
        ∧ fileChunk (prevPath none (filteredThreads rc mode) k)
              ((filteredThreads rc mode).get ⟨k, hk⟩) (1 + k)
            = (if some ((filteredThreads rc mode).get ⟨k, hk⟩).root.path
                  ≠ prevPath none (filteredThreads rc mode) k
               then ["---",
                     "## File: `" ++ ((filteredThreads rc mode).get ⟨k, hk⟩).root.path ++ "`",
                     "",
                     render_thread ((filteredThreads rc mode).get ⟨k, hk⟩) (1 + k)]
               else [render_thread ((filteredThreads rc mode).get ⟨k, hk⟩) (1 + k)]))
    ∧ prevPath none (filteredThreads rc mode) 0 = none
    ∧ (∀ k (hk : k < (filteredThreads rc mode).length),
        prevPath none (filteredThreads rc mode) (k + 1)
          = some (((filteredThreads rc mode).get ⟨k, hk⟩).root.path)) := by
  refine ⟨?_, ?_, ?_, rfl, ?_⟩
  · intro hts
    have hib : inlineBlock (filteredThreads rc mode) mode
        = ["_No inline review comments found for the selected filter._", ""] := by
      rw [hts]; simp [inlineBlock]
    refine ⟨hib, ?_, by rw [hts]; rfl⟩
    apply mem_formatPrLines_of_mem_inlineBlock
    rw [hib]
    exact List.mem_cons_self _ _
  · intro hts
    apply mem_formatPrLines_of_mem_inlineBlock
    rw [inlineBlock_of_ne_nil hts mode]
    exact List.mem_cons_self _ _
  · intro k hk
    refine ⟨threadsLoop_decomp (filteredThreads rc mode) none 1 k hk, ?_⟩
    exact fileChunk_cases _ _ _
  · intro k hk
    simp [prevPath, List.getElem?_eq_getElem hk]

/-- Witness for C8: two single-comment threads on `a.py` and `b.py`; the
filtered list is non-empty and the count line is rendered in the document. -/
theorem inline_block_rendering_witness :
    (filteredThreads [ex_root,
        {id := 2, user_login := "bob", path := some "b.py", line := some 1}] "all" ≠ [])
    ∧ countLine (filteredThreads [ex_root,
        {id := 2, user_login := "bob", path := some "b.py", line := some 1}] "all").length "all"
        ∈ formatPrLines ex_pr [ex_root,
            {id := 2, user_login := "bob", path := some "b.py", line := some 1}] [] [] "all" := by
  have hsorted : (threadsUnsorted [ex_root,
      {id := 2, user_login := "bob", path := some "b.py", line := some 1}]).Pairwise
      (threadLE · ·) := by decide
  have hb : build_threads [ex_root,
      {id := 2, user_login := "bob", path := some "b.py", line := some 1}]
      = threadsUnsorted [ex_root,
          {id := 2, user_login := "bob", path := some "b.py", line := some 1}] :=
    List.mergeSort_of_sorted hsorted
  have hft : filteredThreads [ex_root,
      {id := 2, user_login := "bob", path := some "b.py", line := some 1}] "all"
      = threadsUnsorted [ex_root,
          {id := 2, user_login := "bob", path := some "b.py", line := some 1}] := by
    simp [filteredThreads, applyFilter, hb]
  have hne : filteredThreads [ex_root,
      {id := 2, user_login := "bob", path := some "b.py", line := some 1}] "all" ≠ [] := by
    rw [hft]; decide
  exact ⟨hne,
    (inline_block_rendering ex_pr [ex_root,
        {id := 2, user_login := "bob", path := some "b.py", line := some 1}] [] [] "all").2.1 hne⟩

/-- C9: the review-summaries block is rendered iff some verdict has state
APPROVED / CHANGES_REQUESTED / DISMISSED and its author is not the `ghost`
(anonymized/deleted) account; the block sits inside the document; each
meaningful entry shows reviewer, verdict, and the first 10 characters of the
submission timestamp (the date, when the timestamp starts with a 10-character
date); a non-empty cleaned body yields a preview line whose text is the whole
body when it has at most 200 characters, and exactly the first 200 characters
followed by the ellipsis when longer. -/
theorem review_summaries_rendering (pr : PRInfo) (rc : List RawComment)
    (ic : List RawIssueComment) (rv : List RawReview) (mode : String) :
    (reviewBlock rv ≠ [] ↔ ∃ r ∈ rv,
        (r.state = some "APPROVED" ∨ r.state = some "CHANGES_REQUESTED"
          ∨ r.state = some "DISMISSED") ∧ r.user_login ≠ some "ghost")
    ∧ reviewBlock rv <:+: formatPrLines pr rc ic rv mode
    ∧ (reviewBlock rv ≠ [] → "## Review Summaries" ∈ reviewBlock rv)
    ∧ (∀ r ∈ meaningfulReviews rv,
        reviewHeadline r ∈ reviewBlock rv
        ∧ reviewHeadline r = "- **@" ++ r.user_login.getD "unknown" ++ "** — `"
            ++ r.state.getD "" ++ "` (" ++ py_take (r.submitted_at.getD "") 10 ++ ")"
        ∧ (clean_body (r.body.getD "") ≠ "" → reviewPreview r ∈ reviewBlock rv))
    ∧ (∀ r : RawReview,
        ((clean_body (r.body.getD "")).length ≤ 200 →
          reviewPreview r = "  > " ++ clean_body (r.body.getD ""))
        ∧ ((clean_body (r.body.getD "")).length > 200 →
          reviewPreview r = "  > " ++ py_take (clean_body (r.body.getD "")) 200 ++ "…"
          ∧ (py_take (clean_body (r.body.getD "")) 200).length = 200))
    ∧ (∀ (r : RawReview) (d tail : String), r.submitted_at = some (d ++ tail) →
        d.length = 10 → py_take (r.submitted_at.getD "") 10 = d) := by
  refine ⟨?_, ?_, ?_, ?_, ?_, ?_⟩
  · have hiff : reviewBlock rv ≠ [] ↔ meaningfulReviews rv ≠ [] := by
      rcases hmr : meaningfulReviews rv with _ | ⟨a, l⟩ <;> simp [reviewBlock, hmr]
    rw [hiff]
    rw [Ne, meaningfulReviews, List.filter_eq_nil_iff]
    simp [isMeaningfulReview, not_forall, or_assoc]
  · exact ⟨headerLines pr mode,
      ["## Inline Review Comments", ""]
        ++ inlineBlock (filteredThreads rc mode) mode ++ generalBlock ic,
      by simp [formatPrLines, List.append_assoc]⟩
  · intro h
    rcases hmr : meaningfulReviews rv with _ | ⟨a, l⟩
    · exact absurd (by simp [reviewBlock, hmr]) h
    · simp [reviewBlock, hmr]
  · intro r hr
    have hne : ¬(meaningfulReviews rv).isEmpty = true := by
      simp [List.isEmpty_iff, List.ne_nil_of_mem hr]
    have hblock : reviewBlock rv
        = ["## Review Summaries", ""] ++ (meaningfulReviews rv).flatMap reviewEntryLines
          ++ [""] := by
      simp [reviewBlock, hne]
    refine ⟨?_, rfl, ?_⟩
    · rw [hblock]
      refine List.mem_append_left _ (List.mem_append_right _ ?_)
      exact List.mem_flatMap.mpr ⟨r, hr, by simp [reviewEntryLines]⟩
    · intro hbody
      rw [hblock]
      refine List.mem_append_left _ (List.mem_append_right _ ?_)
      exact List.mem_flatMap.mpr ⟨r, hr, by simp [reviewEntryLines, hbody]⟩
  · intro r
    constructor
    · intro h
      have ht : (clean_body (r.body.getD "")).toList.take 200
          = (clean_body (r.body.getD "")).toList := List.take_of_length_le h
      have hlt : ¬(clean_body (r.body.getD "")).length > 200 := by omega
      simp only [reviewPreview, py_take, ht, if_neg hlt]
      exact congrArg (fun s => "  > " ++ s) (String.append_empty _)
    · intro h
      refine ⟨by simp only [reviewPreview, if_pos h], ?_⟩
      show ((clean_body (r.body.getD "")).toList.take 200).length = 200
      rw [List.length_take]
      have hx : (clean_body (r.body.getD "")).toList.length
          = (clean_body (r.body.getD "")).length := rfl
      omega
  · intro r d tail h hd
    rw [h]
    show String.mk (((d ++ tail).toList).take 10) = d
    rw [show (d ++ tail).toList = d.toList ++ tail.toList from String.data_append d tail,
      List.take_left' (show d.toList.length = 10 from hd)]
    rfl

set_option maxRecDepth 8000 in
/-- Witness for C9: one APPROVED verdict from a non-ghost reviewer whose
cleaned body has 250 characters; its preview is the first 200 characters
followed by the ellipsis, and the summaries block is rendered. -/
theorem review_summaries_rendering_witness :
    ((ex_review250.state = some "APPROVED" ∨ ex_review250.state = some "CHANGES_REQUESTED"
        ∨ ex_review250.state = some "DISMISSED") ∧ ex_review250.user_login ≠ some "ghost")
    ∧ reviewBlock [ex_review250] ≠ []
    ∧ (clean_body (ex_review250.body.getD "")).length > 200
    ∧ reviewPreview ex_review250
        = "  > " ++ py_take (clean_body (ex_review250.body.getD "")) 200 ++ "…"
    ∧ (py_take (clean_body (ex_review250.body.getD "")) 200).length = 200 := by
  have h250 : (clean_body (ex_review250.body.getD "")).length > 200 := by decide
  have h := (review_summaries_rendering ex_pr [] [] [ex_review250] "all").2.2.2.2.1
      ex_review250
  refine ⟨⟨Or.inl rfl, by decide⟩, ?_, h250, (h.2 h250).1, (h.2 h250).2⟩
  have hiff := (review_summaries_rendering ex_pr [] [] [ex_review250] "all").1
  exact hiff.mpr ⟨ex_review250, by simp, ⟨Or.inl rfl, by decide⟩⟩

/-- C10: any filter mode other than `"unresolved"` (e.g. `"open"` or `""`)
raises no error (the embedding is a total function) and renders the same
thread set as `"all"`; the whole document differs from the `"all"` document
only in the header's Filter line (index 7), which shows the mode literally.
(The count line's annotation is the same literal text for every
non-`"unresolved"` mode, so it does not differ.) -/
theorem unknown_filter_mode_behaves_as_all (pr : PRInfo) (rc : List RawComment)
    (ic : List RawIssueComment) (rv : List RawReview) (m : String)
    (hm : m ≠ "unresolved") :
    filteredThreads rc m = build_threads rc
    ∧ formatPrLines pr rc ic rv m
        = (formatPrLines pr rc ic rv "all").set 7 ("- **Filter:** " ++ m) := by
  have hf : filteredThreads rc m = build_threads rc := by
    simp [filteredThreads, applyFilter, hm]
  have hfa : filteredThreads rc "all" = build_threads rc := by
    simp [filteredThreads, applyFilter]
  refine ⟨hf, ?_⟩
  have hib : inlineBlock (build_threads rc) m = inlineBlock (build_threads rc) "all" := by
    simp [inlineBlock, countLine, hm]
  show formatPrLines pr rc ic rv m = _
  simp only [formatPrLines, hf, hfa, hib]
  rfl

/-- Witness for C10 at the unrecognized mode `"open"`. -/
theorem unknown_filter_mode_behaves_as_all_witness :
    ("open" ≠ "unresolved")
    ∧ (filteredThreads [{id := 1, user_login := "a"}] "open"
        = build_threads [{id := 1, user_login := "a"}]
      ∧ formatPrLines
          {owner := "o", repo := "r", number := 1, title := "t", author := "au",
           url := "u", base_branch := "m", head_branch := "h", state := "open", body := ""}
          [{id := 1, user_login := "a"}] [] [] "open"
        = (formatPrLines
            {owner := "o", repo := "r", number := 1, title := "t", author := "au",
             url := "u", base_branch := "m", head_branch := "h", state := "open", body := ""}
            [{id := 1, user_login := "a"}] [] [] "all").set 7 ("- **Filter:** " ++ "open")) :=
  ⟨by decide,
   unknown_filter_mode_behaves_as_all
     {owner := "o", repo := "r", number := 1, title := "t", author := "au",
      url := "u", base_branch := "m", head_branch := "h", state := "open", body := ""}
     [{id := 1, user_login := "a"}] [] [] "open" (by decide)⟩

end PrBridge
